import Mathlib

/-!
Shallow embedding of the batch-processing subsystem of the AI-Powered-CLI
repository: the HTTP client method `GenAIClient.generate_text`
(src/cli/client.py, lines 16-96) and the batch command `process` with its
helpers `process_prompts_concurrent` and `process_single_prompt`
(src/cli/commands/batch.py).

Modelling conventions:
* Python strings are modelled as `List Char` where character-level slicing
  and length matter (the prompt truncation), and as Lean `String` for
  opaque message, name and payload values.
* Wall-clock fields (`processing_time`, `start_time`) are omitted: they are
  real-time measurements with no functional content, and every claim is
  stated up to them.
* Thread scheduling is modelled by an explicit completion order
  `order : List Nat`: `as_completed` yields the submitted futures in some
  permutation of the submission indices `0 .. len(prompts) - 1`.
* A Python function that can raise is modelled as `Except String _`; the
  carried string is the message of the exception.
* `temperature` is a Python float on which the code performs no arithmetic,
  only a truthiness test and passthrough, so it is modelled as `ℚ`.
-/

/-- Structured details object of an error body; client.py line 56 returns
the details field of the error body (an empty dict when absent) and
batch.py line 196 reads its reason field. -/
structure ErrDetails where
  reason : Option String := none
  severity : Option String := none
deriving DecidableEq

/-- A decoded JSON response body, restricted to the fields client.py and
batch.py actually read.  Absent optional keys are `none`. -/
structure RespObj where
  generated_text : String := ""
  metadata : Option (List (String × String)) := none
  error : Option String := none
  details : Option ErrDetails := none
  message : Option String := none
deriving DecidableEq

/-- The body of an HTTP response as seen by `response.json()`:
empty content, undecodable content (with the decoder message), or a
decoded JSON object. -/
inductive Body where
  | empty : Body
  | malformed (msg : String) : Body
  | obj (o : RespObj) : Body
deriving DecidableEq

/-- What the single `requests.post` call in `generate_text` can come back
with: a response, or one of the exceptions client.py catches. -/
inductive HttpEvent where
  | response (status : Nat) (body : Body) : HttpEvent
  | timeout : HttpEvent
  | connectionError : HttpEvent
  | otherException (msg : String) : HttpEvent
deriving DecidableEq

/-- The dictionary returned by `GenAIClient.generate_text`; keys that a
branch does not set are `none`. -/
structure GenResult where
  success : Bool
  data : Option RespObj := none
  error : Option String := none
  details : Option ErrDetails := none
  message : Option String := none
  status_code : Nat
deriving DecidableEq

/-- client.py line 87: the message Invalid JSON response followed by the
decoder exception text. -/
def jsonDecodeMsg (m : String) : String := "Invalid JSON response: " ++ m

/-- The message of the JSON decoder when asked to decode empty content. -/
def emptyBodyMsg : String := "Expecting value: line 1 column 1 (char 0)"

/-- Embedding of `GenAIClient.generate_text` (client.py lines 16-96) as a
function of the single transport event its one `requests.post` call
produces.  Decoding an empty or undecodable body raises a JSON decode
error, which the corresponding except arm turns into a 500-surrogate
record; in the non-200/400 branch an empty body short-circuits to an
empty dict instead of being decoded. -/
def generate_text (e : HttpEvent) : GenResult :=
  match e with
  | .timeout =>
    { success := false
    , error := some "Request timeout - API took too long to respond"
    , status_code := 408 }
  | .connectionError =>
    { success := false
    , error := some "Connection error - Could not reach API"
    , status_code := 503 }
  | .otherException m =>
    { success := false
    , error := some ("Unexpected error: " ++ m)
    , status_code := 500 }
  | .response status body =>
    if status = 200 then
      match body with
      | .obj o => { success := true, data := some o, status_code := 200 }
      | .empty =>
        { success := false, error := some (jsonDecodeMsg emptyBodyMsg), status_code := 500 }
      | .malformed m =>
        { success := false, error := some (jsonDecodeMsg m), status_code := 500 }
    else if status = 400 then
      match body with
      | .obj o =>
        { success := false
        , error := some (o.error.getD "Bad request")
        , details := o.details
        , message := some (o.message.getD "")
        , status_code := 400 }
      | .empty =>
        { success := false, error := some (jsonDecodeMsg emptyBodyMsg), status_code := 500 }
      | .malformed m =>
        { success := false, error := some (jsonDecodeMsg m), status_code := 500 }
    else
      match body with
      | .obj o =>
        { success := false
        , error := some (o.error.getD "Unknown API error")
        , status_code := status }
      | .empty =>
        { success := false, error := some "Unknown API error", status_code := status }
      | .malformed m =>
        { success := false, error := some (jsonDecodeMsg m), status_code := 500 }

/-- client.py performs exactly one `requests.post` per call (no loop, no
retry): given the stream of transport events the network would supply to
successive attempts, one call consumes exactly the first. -/
def generate_textAttempts : List HttpEvent → Option (GenResult × Nat)
  | [] => none
  | e :: _ => some (generate_text e, 1)

/-- The configured defaults `generate_text` falls back to
(client.py lines 20-25, with the hardcoded second-level fallbacks). -/
structure ConfigDefaults where
  default_max_tokens : Int := 1000
  default_temperature : ℚ := 7/10
  default_user_id : String := "cli_user"

/-- The `params` keyword dictionary built by the batch worker; a key is
present (`some`) or absent (`none`). -/
structure RequestParams where
  max_tokens : Option Int := none
  temperature : Option ℚ := none
  user_id : Option String := none
deriving DecidableEq

/-- batch.py lines 164-171: the params dict is populated under Python
truthiness tests (`if max_tokens:`, `if temperature:`, `if user_id:`), so a
supplied zero, 0.0 or empty string is dropped exactly like an unsupplied
value. -/
def buildParams (max_tokens : Option Int) (temperature : Option ℚ)
    (user_id : Option String) : RequestParams :=
  { max_tokens :=
      match max_tokens with
      | some v => if v ≠ 0 then some v else none
      | none => none
  , temperature :=
      match temperature with
      | some v => if v ≠ 0 then some v else none
      | none => none
  , user_id :=
      match user_id with
      | some v => if v ≠ "" then some v else none
      | none => none }

/-- The JSON body of the POST request sent by `generate_text`. -/
structure Payload where
  prompt : List Char
  max_tokens : Int
  temperature : ℚ
  user_id : String
deriving DecidableEq

/-- client.py lines 20-25: each payload field is
`kwargs.get(key, self.config.get(default_key, fallback))`. -/
def payloadOf (prompt : List Char) (params : RequestParams)
    (cfg : ConfigDefaults) : Payload :=
  { prompt := prompt
  , max_tokens := params.max_tokens.getD cfg.default_max_tokens
  , temperature := params.temperature.getD cfg.default_temperature
  , user_id := params.user_id.getD cfg.default_user_id }

/-- batch.py line 196: the reason field of the details object of a result
(absent keys yield none). -/
def detailsReason (r : GenResult) : Option String :=
  match r.details with
  | some d => d.reason
  | none => none

/-- batch.py lines 187 and 202: a prompt of more than 100 characters is
cut to its first 100 characters with three dots appended; shorter prompts
are kept whole. -/
def truncPrompt (p : List Char) : List Char :=
  if p.length > 100 then p.take 100 ++ [ '.', '.', '.' ] else p

/-- The Python format spec `04d`: decimal digits left-padded with zeros to
width 4 (wider numbers are printed in full). -/
def pad4 (n : Nat) : String :=
  let s := Nat.repr n
  if s.length < 4 then String.mk (List.replicate (4 - s.length) '0') ++ s else s

/-- batch.py line 179: the per-item file name, result_ followed by the
1-based index zero-padded to four digits, then .txt. -/
def resultFileName (index : Nat) : String :=
  "result_" ++ pad4 (index + 1) ++ ".txt"

/-- The per-prompt result dictionary built by `process_single_prompt`
(batch.py lines 184-205); keys the producing branch does not set keep their
defaults (`result.get` on an absent key is falsy / `None`). -/
structure ResultRec where
  success : Bool
  content_filtered : Bool := false
  index : Nat
  prompt : List Char
  output_file : Option String := none
  error : Option String := none
  metadata : List (String × String) := []
deriving DecidableEq, Inhabited

/-- The aggregate summary dictionary (batch.py lines 65-74), minus the
wall-clock `processing_time` field. -/
structure BatchSummary where
  input_file : String
  total_prompts : Nat
  successful : Nat
  failed : Nat
  content_filtered : Nat
  output_directory : String
  results : List ResultRec
deriving DecidableEq

/-- Content of a file written into the output directory: a generated-text
file or the JSON-serialized summary. -/
inductive FileData where
  | textFile (content : String) : FileData
  | jsonFile (s : BatchSummary) : FileData
deriving DecidableEq

/-- Embedding of `process_single_prompt` (batch.py lines 158-205), applied to the
`GenAIClient.generate_text` result for this prompt.  `writeRes` is the
outcome of the `open`/`write` of the per-item file; the source wraps it in
no try/except, so a write exception propagates (`Except.error`).  A missing
data key on a successful result would likewise raise a KeyError. -/
def process_single_prompt (prompt : List Char) (index : Nat) (r : GenResult)
    (writeRes : Except String Unit) :
    Except String (ResultRec × List (String × FileData)) :=
  if r.success then
    match writeRes with
    | .error e => .error e
    | .ok _ =>
      match r.data with
      | none => .error "KeyError: data"
      | some o =>
        .ok ({ success := true
             , index := index
             , prompt := truncPrompt prompt
             , output_file := some (resultFileName index)
             , metadata := o.metadata.getD [] }
            , [ (resultFileName index, FileData.textFile o.generated_text) ])
  else
    .ok ({ success := false
         , content_filtered :=
             decide (r.status_code = 400 ∧ detailsReason r = some "Content policy violation")
         , index := index
         , prompt := truncPrompt prompt
         , error := some (r.error.getD "Unknown error") }
        , [])

/-- The unit of work submitted for prompt `i` (batch.py lines 129-134):
`process_single_prompt(prompts[i], i, ...)` with the transport result
`gen i` and the file-write outcome `writeRes i`. -/
def workerAt (prompts : List (List Char)) (gen : Nat → GenResult)
    (writeRes : Nat → Except String Unit) (i : Nat) :
    Except String (ResultRec × List (String × FileData)) :=
  process_single_prompt (prompts.getD i []) i (gen i) (writeRes i)

/-- The collection loop over `as_completed` futures (batch.py lines
141-152): `future.result()` re-raises the first worker exception in
completion order; otherwise the records are appended in completion order
and the file writes accumulate. -/
def collectResults :
    List (Except String (ResultRec × List (String × FileData))) →
    Except String (List ResultRec × List (String × FileData))
  | [] => .ok ([], [])
  | x :: xs =>
    match x with
    | .error e => .error e
    | .ok (r, w) =>
      match collectResults xs with
      | .error e => .error e
      | .ok (rs, ws) => .ok (r :: rs, w ++ ws)

/-- batch.py line 155: the comparison underlying the sort, whose key is
the index field of the record (defaulting to 0). -/
def recLE (a b : ResultRec) : Bool := decide (a.index ≤ b.index)

/-- Embedding of `process_prompts_concurrent` (batch.py lines 111-156).  `maxWorkers`
sizes the thread pool and `delay` paces submissions; in the source both
influence only timing and scheduling — that is, which completion order
`order` is realised — never the data computed, so the model threads them
through unused.  The final sort by index is the stable Python list sort. -/
def process_prompts_concurrent (prompts : List (List Char))
    (gen : Nat → GenResult) (writeRes : Nat → Except String Unit)
    (maxWorkers : Nat) (delay : ℚ) (order : List Nat) :
    Except String (List ResultRec × List (String × FileData)) :=
  match collectResults (order.map (workerAt prompts gen writeRes)) with
  | .error e => .error e
  | .ok (rs, ws) => .ok (rs.mergeSort recLE, ws)

/-- batch.py lines 60-74: the summary computed from the ordered results. -/
def mkSummary (input_file : String) (output_directory : String)
    (prompts : List (List Char)) (results : List ResultRec) : BatchSummary :=
  { input_file := input_file
  , total_prompts := prompts.length
  , successful := results.countP (·.success)
  , failed := results.length - results.countP (·.success)
  , content_filtered := results.countP (·.content_filtered)
  , output_directory := output_directory
  , results := results }

/-- Observable outcome of one run of the `process` command: the computed
summary (if any), the files written into the output directory in order,
the number of `generate_text` calls made, and whether the empty-input
error was reported to the caller. -/
structure ProcOut where
  summary : Option BatchSummary := none
  writes : List (String × FileData) := []
  transportCalls : Nat := 0
  emptyInputReported : Bool := false
deriving DecidableEq

/-- The `process` command (batch.py lines 22-89) from the point where the
prompt list has been loaded: empty input is reported and the command
returns with no further effect (lines 44-46); otherwise one worker per
prompt runs `generate_text`, the collected results are summarised, and
the summary is written as `batch_summary.json` after the per-item files. -/
def process (input_file output_directory : String) (prompts : List (List Char))
    (gen : Nat → GenResult) (writeRes : Nat → Except String Unit)
    (maxWorkers : Nat) (delay : ℚ) (order : List Nat) : Except String ProcOut :=
  if prompts.length = 0 then
    .ok { emptyInputReported := true }
  else
    match process_prompts_concurrent prompts gen writeRes maxWorkers delay order with
    | .error e => .error e
    | .ok (results, ws) =>
      let summary := mkSummary input_file output_directory prompts results
      .ok { summary := some summary
          , writes := ws ++ [ ("batch_summary.json", FileData.jsonFile summary) ]
          , transportCalls := prompts.length
          , emptyInputReported := false }

/-- Projection of an `Except` worker result to its record (junk `default`
in the error case, used only under an `isOk` hypothesis). -/
def okPart (e : Except String (ResultRec × List (String × FileData))) :
    ResultRec × List (String × FileData) :=
  match e with
  | .ok x => x
  | .error _ => (default, [])

/-- The final, input-ordered result list of a fully successful run: the
record of worker `i` at position `i`. -/
def finalResults (prompts : List (List Char)) (gen : Nat → GenResult)
    (writeRes : Nat → Except String Unit) : List ResultRec :=
  (List.range prompts.length).map (fun i => (okPart (workerAt prompts gen writeRes i)).1)

/-- The classified outcome list returned by `process_prompts_concurrent`,
`none` when the run raised. -/
def ppcResults (prompts : List (List Char)) (gen : Nat → GenResult)
    (writeRes : Nat → Except String Unit) (maxWorkers : Nat) (delay : ℚ)
    (order : List Nat) : Option (List ResultRec) :=
  match process_prompts_concurrent prompts gen writeRes maxWorkers delay order with
  | .ok (rs, _) => some rs
  | .error _ => none

/-- The summary computed by a `process` run, `none` when the run raised or
returned early. -/
def summaryOf (e : Except String ProcOut) : Option BatchSummary :=
  match e with
  | .ok o => o.summary
  | .error _ => none

/-- The generated text of a transport result (empty when absent). -/
def dataTextOf (r : GenResult) : String :=
  match r.data with
  | some o => o.generated_text
  | none => ""


/-! ## Concrete fixtures for witnesses and counterexamples -/

/-- A transport result: server error, for exercising failure outcomes. -/
def cGenFail : Nat → GenResult := fun _ =>
  { success := false, error := some "Internal error", status_code := 500 }

/-- File writes that always succeed. -/
def cWrOk : Nat → Except String Unit := fun _ => Except.ok ()

/-- A decoded success body. -/
def cRespOk : RespObj := { generated_text := "hello" }

/-- A transport result: success, for exercising the success path. -/
def cGenOk : Nat → GenResult := fun _ =>
  { success := true, data := some cRespOk, status_code := 200 }

/-- A 400 result whose detail reason is the lowercase string that the
spec quotes. -/
def cGen400lower : GenResult :=
  { success := false, error := some "Bad request"
  , details := some { reason := some "content policy violation" }
  , status_code := 400 }

/-- A 400 result whose detail reason is the exact string the source
compares against. -/
def cGen400cap : GenResult :=
  { success := false, error := some "Bad request"
  , details := some { reason := some "Content policy violation", severity := some "HIGH" }
  , status_code := 400 }

/-- The failure record the worker builds for `cGen400cap`. -/
def cRecCF : ResultRec :=
  { success := false, content_filtered := true, index := 0, prompt := []
  , error := some "Bad request" }

/-- A 103-character prompt whose last three characters are dots: longer
than 100 characters, yet equal to its own truncation. -/
def cLongPrompt : List Char := List.replicate 100 'a' ++ [ '.', '.', '.' ]

/-! ## Helper lemmas -/

@[simp]
theorem exceptIsOk_ok {ε α : Type} (a : α) : (Except.ok a : Except ε α).isOk = true := rfl

@[simp]
theorem exceptIsOk_error {ε α : Type} (e : ε) : (Except.error e : Except ε α).isOk = false := rfl

/-- Exact characterization of a non-raising run of `process_single_prompt`. -/
theorem psp_ok_cases {p : List Char} {i : Nat} {r : GenResult}
    {wr : Except String Unit} {rec : ResultRec} {ws : List (String × FileData)}
    (h : process_single_prompt p i r wr = .ok (rec, ws)) :
    (r.success = true ∧ (∃ o, r.data = some o ∧
      rec = { success := true, index := i, prompt := truncPrompt p,
              output_file := some (resultFileName i), metadata := o.metadata.getD [] } ∧
      ws = [ (resultFileName i, FileData.textFile o.generated_text) ]))
    ∨ (r.success = false ∧
      rec = { success := false,
              content_filtered :=
                decide (r.status_code = 400 ∧ detailsReason r = some "Content policy violation"),
              index := i, prompt := truncPrompt p,
              error := some (r.error.getD "Unknown error") } ∧
      ws = []) := by
  unfold process_single_prompt at h
  cases hs : r.success with
  | false =>
    right
    simp only [hs, Bool.false_eq_true, if_false] at h
    simp only [Except.ok.injEq, Prod.mk.injEq] at h
    exact ⟨rfl, h.1.symm, h.2.symm⟩
  | true =>
    left
    simp only [hs, if_true] at h
    match wr with
    | .error e => simp at h
    | .ok u =>
      cases hd : r.data with
      | none => simp [hd] at h
      | some o =>
        simp only [hd, Except.ok.injEq, Prod.mk.injEq] at h
        exact ⟨rfl, o, rfl, h.1.symm, h.2.symm⟩

/-- A worker that returns an outcome stamps it with its own prompt index. -/
theorem workerAt_index {P : List (List Char)} {g : Nat → GenResult}
    {wr : Nat → Except String Unit} {i : Nat}
    (h : (workerAt P g wr i).isOk = true) :
    (okPart (workerAt P g wr i)).1.index = i := by
  cases hw : workerAt P g wr i with
  | error e => rw [hw] at h; simp at h
  | ok pr =>
    obtain ⟨rec, ws⟩ := pr
    rcases psp_ok_cases hw with ⟨_, o, _, hrec, _⟩ | ⟨_, hrec, _⟩ <;>
      simp [okPart, hw, hrec]

/-- A worker outcome marked content-filtered is marked unsuccessful. -/
theorem workerAt_cf_not_success {P : List (List Char)} {g : Nat → GenResult}
    {wr : Nat → Except String Unit} {i : Nat}
    (h : (workerAt P g wr i).isOk = true)
    (hcf : (okPart (workerAt P g wr i)).1.content_filtered = true) :
    (okPart (workerAt P g wr i)).1.success = false := by
  cases hw : workerAt P g wr i with
  | error e => rw [hw] at h; simp at h
  | ok pr =>
    obtain ⟨rec, ws⟩ := pr
    rw [hw] at hcf
    rcases psp_ok_cases hw with ⟨_, o, _, hrec, _⟩ | ⟨_, hrec, _⟩ <;>
      simp [okPart, hw, hrec] <;> simp [okPart, hrec] at hcf

/-- The collection loop succeeds exactly when every collected future
returned an outcome rather than raising. -/
theorem collectResults_isOk_iff
    (l : List (Except String (ResultRec × List (String × FileData)))) :
    (collectResults l).isOk = true ↔ ∀ x ∈ l, x.isOk = true := by
  induction l with
  | nil => simp [collectResults]
  | cons x xs ih =>
    cases x with
    | error e => simp [collectResults]
    | ok pr =>
      obtain ⟨r, w⟩ := pr
      have hred : (collectResults (Except.ok (r, w) :: xs)).isOk =
          (collectResults xs).isOk := by
        cases hc : collectResults xs with
        | error e => simp [collectResults, hc]
        | ok pr2 =>
          obtain ⟨rs, ws⟩ := pr2
          simp [collectResults, hc]
      rw [hred, ih]
      simp

/-- When every future returns an outcome, collection yields exactly the
records in completion order together with the concatenated file writes. -/
theorem collectResults_ok
    (f : Nat → Except String (ResultRec × List (String × FileData)))
    (l : List Nat) (h : ∀ i ∈ l, (f i).isOk = true) :
    collectResults (l.map f) =
      .ok (l.map (fun i => (okPart (f i)).1),
           (l.map (fun i => (okPart (f i)).2)).flatten) := by
  induction l with
  | nil => simp [collectResults]
  | cons i t ih =>
    have hi : (f i).isOk = true := h i (List.mem_cons_self i t)
    have ht : ∀ j ∈ t, (f j).isOk = true := fun j hj => h j (List.mem_cons_of_mem i hj)
    cases hfi : f i with
    | error e => rw [hfi] at hi; simp at hi
    | ok pr =>
      obtain ⟨r, w⟩ := pr
      simp only [List.map_cons, collectResults, hfi, ih ht, List.flatten_cons, okPart]

theorem recLE_trans (a b c : ResultRec) (hab : recLE a b = true)
    (hbc : recLE b c = true) : recLE a c = true := by
  simp only [recLE, decide_eq_true_eq] at hab hbc ⊢
  omega

theorem recLE_total (a b : ResultRec) : (recLE a b || recLE b a) = true := by
  simp only [recLE, Bool.or_eq_true, decide_eq_true_eq]
  omega

/-- A list of records that is sorted by index and is a permutation of the
per-index records `w 0, ..., w (n-1)` is exactly that list in index order:
the indices are distinct, so sorting restores input order. -/
theorem sorted_perm_range_eq (n : Nat) (w : Nat → ResultRec)
    (hw : ∀ i < n, (w i).index = i) (l : List ResultRec)
    (hperm : l.Perm ((List.range n).map w))
    (hsort : List.Pairwise (fun a b => recLE a b = true) l) :
    l = (List.range n).map w := by
  have hlen : l.length = n := by
    have := hperm.length_eq
    simpa using this
  have hmapidx : List.map (ResultRec.index ∘ w) (List.range n) = List.range n := by
    have h1 : List.map (ResultRec.index ∘ w) (List.range n) =
        List.map id (List.range n) := by
      refine List.map_congr_left ?_
      intro a ha
      simp only [Function.comp_apply, id_eq]
      exact hw a (List.mem_range.mp ha)
    simpa using h1
  have hidx : l.map ResultRec.index = List.range n := by
    have hp : (l.map ResultRec.index).Perm (List.range n) := by
      have h2 := hperm.map ResultRec.index
      rwa [List.map_map, hmapidx] at h2
    have hs1 : List.Sorted (· ≤ ·) (l.map ResultRec.index) := by
      rw [List.Sorted, List.pairwise_map]
      refine hsort.imp ?_
      intro a b hab
      simpa [recLE, decide_eq_true_eq] using hab
    have hs2 : List.Sorted (· ≤ ·) (List.range n) := by
      rw [List.Sorted]
      exact List.pairwise_le_range n
    exact List.eq_of_perm_of_sorted hp hs1 hs2
  refine List.ext_get (by simpa using hlen) ?_
  intro k h1 h2
  have hk : k < n := by omega
  have hgetidx : (l.get ⟨k, h1⟩).index = k := by
    have h5 : (l.map ResultRec.index)[k]? = (List.range n)[k]? := by rw [hidx]
    rw [List.getElem?_map, List.getElem?_eq_getElem h1,
      List.getElem?_eq_getElem (by simpa using hk)] at h5
    simp only [Option.map_some, Option.some.injEq, List.getElem_range] at h5
    simpa [List.get_eq_getElem] using h5
  have hmem : l.get ⟨k, h1⟩ ∈ (List.range n).map w :=
    (hperm.mem_iff).mp (List.get_mem l k h1)
  obtain ⟨j, hj, hwj⟩ := List.mem_map.mp hmem
  have hjn : j < n := List.mem_range.mp hj
  have hjk : j = k := by
    have h6 := hw j hjn
    rw [hwj, hgetidx] at h6
    omega
  subst hjk
  rw [List.get_eq_getElem, List.get_eq_getElem]
  simp only [List.getElem_map, List.getElem_range]
  rw [← List.get_eq_getElem l ⟨j, h1⟩]
  exact hwj.symm

/-- A fully successful dispatch run: the collected records, sorted by
index, are exactly the per-index worker records in input order. -/
theorem ppc_ok (P : List (List Char)) (g : Nat → GenResult)
    (wr : Nat → Except String Unit) (mw : Nat) (d : ℚ) (ord : List Nat)
    (hperm : ord.Perm (List.range P.length))
    (hok : ∀ i ∈ ord, (workerAt P g wr i).isOk = true) :
    process_prompts_concurrent P g wr mw d ord =
      .ok (finalResults P g wr,
           (ord.map (fun i => (okPart (workerAt P g wr i)).2)).flatten) := by
  have hw : ∀ i < P.length, ((fun i => (okPart (workerAt P g wr i)).1) i).index = i :=
    fun i hi => workerAt_index (hok i ((hperm.mem_iff).mpr (List.mem_range.mpr hi)))
  have hsorted := List.sorted_mergeSort recLE_trans recLE_total
    (ord.map fun i => (okPart (workerAt P g wr i)).1)
  have hpm : ((ord.map fun i => (okPart (workerAt P g wr i)).1).mergeSort recLE).Perm
      ((List.range P.length).map fun i => (okPart (workerAt P g wr i)).1) :=
    (List.mergeSort_perm _ recLE).trans (hperm.map _)
  have hms := sorted_perm_range_eq P.length _ hw _ hpm hsorted
  unfold process_prompts_concurrent
  rw [collectResults_ok (workerAt P g wr) ord hok]
  dsimp only
  rw [hms]
  rfl

/-- A dispatch run that returns at all had every worker return an outcome. -/
theorem ppc_ok_inv {P : List (List Char)} {g : Nat → GenResult}
    {wr : Nat → Except String Unit} {mw : Nat} {d : ℚ} {ord : List Nat}
    {results : List ResultRec} {ws : List (String × FileData)}
    (hp : process_prompts_concurrent P g wr mw d ord = .ok (results, ws)) :
    ∀ i ∈ ord, (workerAt P g wr i).isOk = true := by
  intro i hi
  unfold process_prompts_concurrent at hp
  cases hc : collectResults (ord.map (workerAt P g wr)) with
  | error e => rw [hc] at hp; simp at hp
  | ok pr =>
    have h1 : (collectResults (ord.map (workerAt P g wr))).isOk = true := by
      rw [hc]; simp
    exact (collectResults_isOk_iff _).mp h1 (workerAt P g wr i)
      (List.mem_map_of_mem _ hi)

/-- A worker that raises makes the whole dispatch raise
(the exception resurfaces from `future.result()`). -/
theorem ppc_abort (P : List (List Char)) (g : Nat → GenResult)
    (wr : Nat → Except String Unit) (mw : Nat) (d : ℚ) (ord : List Nat)
    (i : Nat) (hi : i ∈ ord) (herr : (workerAt P g wr i).isOk = false) :
    (process_prompts_concurrent P g wr mw d ord).isOk = false := by
  unfold process_prompts_concurrent
  cases hc : collectResults (ord.map (workerAt P g wr)) with
  | error e => simp
  | ok pr =>
    exfalso
    have h1 : (collectResults (ord.map (workerAt P g wr))).isOk = true := by
      rw [hc]; simp
    have h2 := (collectResults_isOk_iff _).mp h1 (workerAt P g wr i)
      (List.mem_map_of_mem _ hi)
    rw [herr] at h2
    exact Bool.false_ne_true h2

/-- A fully successful `process` run, with its summary and writes. -/
theorem process_ok (inf outd : String) (P : List (List Char))
    (g : Nat → GenResult) (wr : Nat → Except String Unit) (mw : Nat) (d : ℚ)
    (ord : List Nat) (hne : P.length ≠ 0)
    (hperm : ord.Perm (List.range P.length))
    (hok : ∀ i ∈ ord, (workerAt P g wr i).isOk = true) :
    process inf outd P g wr mw d ord =
      .ok { summary := some (mkSummary inf outd P (finalResults P g wr))
          , writes := (ord.map (fun i => (okPart (workerAt P g wr i)).2)).flatten ++
              [ ("batch_summary.json",
                 FileData.jsonFile (mkSummary inf outd P (finalResults P g wr))) ]
          , transportCalls := P.length
          , emptyInputReported := false } := by
  unfold process
  rw [if_neg hne, ppc_ok P g wr mw d ord hperm hok]

/-- Counting elements satisfying `p` when `p` excludes `q`: at most the
elements not satisfying `q`. -/
theorem countP_le_length_sub_countP {α : Type} (p q : α → Bool) (l : List α)
    (h : ∀ a ∈ l, p a = true → q a = false) :
    l.countP p ≤ l.length - l.countP q := by
  induction l with
  | nil => simp
  | cons a t ih =>
    have ha := h a (List.mem_cons_self a t)
    have ht : ∀ b ∈ t, p b = true → q b = false :=
      fun b hb => h b (List.mem_cons_of_mem a hb)
    have hq : t.countP q ≤ t.length := List.countP_le_length q
    have hit := ih ht
    by_cases hpa : p a = true
    · have hqa := ha hpa
      simp [List.countP_cons, hpa, hqa]
      omega
    · have hpa2 : p a = false := by
        cases hval : p a
        · rfl
        · exact absurd hval hpa
      cases hqa2 : q a <;>
        · simp [List.countP_cons, hpa2, hqa2]
          omega

/-- Flattening per-element singleton-or-empty lists is mapping over the
filtered elements. -/
theorem flatten_ite_singleton {β : Type} (q : Nat → Bool) (f : Nat → β)
    (l : List Nat) :
    (l.map (fun i => if q i then [ f i ] else [])).flatten = (l.filter q).map f := by
  induction l with
  | nil => rfl
  | cons a t ih =>
    by_cases hq : q a = true <;> simp [List.filter_cons, hq, ih]

/-- The files a worker writes: exactly the index-named text file when the
transport result succeeded, nothing otherwise. -/
theorem workerAt_writes {P : List (List Char)} {g : Nat → GenResult}
    {wr : Nat → Except String Unit} {i : Nat}
    (h : (workerAt P g wr i).isOk = true) :
    (okPart (workerAt P g wr i)).2 =
      if (g i).success then
        [ (resultFileName i, FileData.textFile (dataTextOf (g i))) ]
      else [] := by
  cases hw : workerAt P g wr i with
  | error e => rw [hw] at h; simp at h
  | ok pr =>
    obtain ⟨rec, ws⟩ := pr
    rcases psp_ok_cases hw with ⟨hs, o, hd, hrec, hws⟩ | ⟨hs, hrec, hws⟩
    · subst hws
      simp [okPart, hw, hs, dataTextOf, hd]
    · subst hws
      simp [okPart, hw, hs]

/-! ## Claim theorems -/

/-- C1: for every non-empty prompt sequence, provided every worker unit
returns an outcome, the final list returned by
`process_prompts_concurrent` — which is also the list persisted in the
summary — has exactly one outcome per prompt, and the outcome at position
`i` carries prompt index `i`: final ordering matches input order
regardless of completion order. -/
theorem claim_C1_batch_ordering (inf outd : String) (P : List (List Char))
    (g : Nat → GenResult) (wr : Nat → Except String Unit) (mw : Nat) (d : ℚ)
    (ord : List Nat) (hne : P ≠ [])
    (hperm : ord.Perm (List.range P.length))
    (hok : ∀ i ∈ ord, (workerAt P g wr i).isOk = true) :
    ppcResults P g wr mw d ord = some (finalResults P g wr) ∧
    summaryOf (process inf outd P g wr mw d ord) =
      some (mkSummary inf outd P (finalResults P g wr)) ∧
    (mkSummary inf outd P (finalResults P g wr)).results = finalResults P g wr ∧
    (finalResults P g wr).length = P.length ∧
    (∀ i (h : i < (finalResults P g wr).length),
      ((finalResults P g wr).get ⟨i, h⟩).index = i) := by
  have hppc := ppc_ok P g wr mw d ord hperm hok
  have hlen : (finalResults P g wr).length = P.length := by
    simp [finalResults]
  have hne0 : P.length ≠ 0 := fun h0 => hne (List.length_eq_zero.mp h0)
  refine ⟨?_, ?_, rfl, hlen, ?_⟩
  · simp [ppcResults, hppc]
  · rw [process_ok inf outd P g wr mw d ord hne0 hperm hok]
    rfl
  · intro i h
    have hi : i < P.length := by rw [← hlen]; exact h
    have hget : (finalResults P g wr).get ⟨i, h⟩ = (okPart (workerAt P g wr i)).1 := by
      simp [finalResults, List.get_eq_getElem]
    rw [hget]
    exact workerAt_index (hok i ((hperm.mem_iff).mpr (List.mem_range.mpr hi)))

/-- Witness for C1 at a concrete two-prompt batch completing in reverse
order. -/
theorem claim_C1_witness :
    ([ [ 'a' ], [ 'b' ] ] : List (List Char)) ≠ [] ∧
    ppcResults [ [ 'a' ], [ 'b' ] ] cGenFail cWrOk 3 1 [1, 0] =
      some (finalResults [ [ 'a' ], [ 'b' ] ] cGenFail cWrOk) :=
  ⟨by decide,
   (claim_C1_batch_ordering "p.txt" "out" [ [ 'a' ], [ 'b' ] ] cGenFail cWrOk
     3 1 [1, 0] (by decide) (by decide) (by decide)).1⟩

/-- C5: given an empty prompt sequence, the batch `process` command
reports the failure to the caller, makes no transport call, writes no
per-item or summary file, and returns normally (does not raise). -/
theorem claim_C5_empty_input (inf outd : String) (g : Nat → GenResult)
    (wr : Nat → Except String Unit) (mw : Nat) (d : ℚ) (ord : List Nat) :
    process inf outd [] g wr mw d ord =
      Except.ok { summary := none, writes := [], transportCalls := 0,
                  emptyInputReported := true } := rfl

/-- C9: for a fixed mapping from prompts to transport results, the
classified outcome list is independent of worker count, pacing delay and
completion order: any two runs over permutations of the submission
indices produce the same outcome content. -/
theorem claim_C9_concurrency_independent (P : List (List Char))
    (g : Nat → GenResult) (wr : Nat → Except String Unit)
    (mw₁ mw₂ : Nat) (d₁ d₂ : ℚ) (ord₁ ord₂ : List Nat)
    (h₁ : ord₁.Perm (List.range P.length))
    (h₂ : ord₂.Perm (List.range P.length))
    (hok : ∀ i < P.length, (workerAt P g wr i).isOk = true) :
    ppcResults P g wr mw₁ d₁ ord₁ = ppcResults P g wr mw₂ d₂ ord₂ := by
  have hok₁ : ∀ i ∈ ord₁, (workerAt P g wr i).isOk = true :=
    fun i hi => hok i (List.mem_range.mp ((h₁.mem_iff).mp hi))
  have hok₂ : ∀ i ∈ ord₂, (workerAt P g wr i).isOk = true :=
    fun i hi => hok i (List.mem_range.mp ((h₂.mem_iff).mp hi))
  simp [ppcResults, ppc_ok P g wr mw₁ d₁ ord₁ h₁ hok₁,
    ppc_ok P g wr mw₂ d₂ ord₂ h₂ hok₂]

/-- Witness for C9: one worker with no delay versus three workers with
delay, reversed completion order, same outcome list. -/
theorem claim_C9_witness :
    ppcResults [ [ 'a' ], [ 'b' ] ] cGenFail cWrOk 1 0 [0, 1] =
    ppcResults [ [ 'a' ], [ 'b' ] ] cGenFail cWrOk 3 1 [1, 0] :=
  claim_C9_concurrency_independent [ [ 'a' ], [ 'b' ] ] cGenFail cWrOk 1 3 0 1
    [0, 1] [1, 0] (by decide) (by decide) (by decide)

/-- C2 counterexample: a 400 result whose detail reason is the lowercase
string "content policy violation" — exactly the premise of the claim — is
classified as a generic failure, not as content-filtered: the source
compares against the capitalized string. -/
theorem claim_C2_counterexample :
    cGen400lower.success = false ∧ cGen400lower.status_code = 400 ∧
    detailsReason cGen400lower = some "content policy violation" ∧
    process_single_prompt [] 0 cGen400lower (Except.ok ()) =
      Except.ok ({ success := false, content_filtered := false, index := 0,
                   prompt := [], error := some "Bad request" }, []) := by
  refine ⟨rfl, rfl, rfl, ?_⟩
  rfl

/-- C2 (amended): a successful result yields a success outcome; an
unsuccessful result with status 400 whose detail reason equals the exact
string "Content policy violation" (capital C, as compared by the source)
yields a content-filtered outcome; every other unsuccessful result yields
a generic failure.  Exactly one of the three variants is produced. -/
theorem claim_C2_classification (p : List Char) (i : Nat) (r : GenResult)
    (wr : Except String Unit) (rec : ResultRec) (ws : List (String × FileData))
    (h : process_single_prompt p i r wr = .ok (rec, ws)) :
    rec.success = r.success ∧
    (rec.content_filtered = true ↔
      (r.success = false ∧ r.status_code = 400 ∧
       detailsReason r = some "Content policy violation")) ∧
    (rec.success = true → rec.content_filtered = false) := by
  rcases psp_ok_cases h with ⟨hs, o, hd, hrec, hws⟩ | ⟨hs, hrec, hws⟩
  · subst hrec
    simp [hs]
  · subst hrec
    simp [hs, decide_eq_true_eq]

/-- Witness for C2 at the capitalized reason string. -/
theorem claim_C2_witness :
    cRecCF.content_filtered = true ∧ cRecCF.success = false ∧
    cGen400cap.status_code = 400 ∧
    detailsReason cGen400cap = some "Content policy violation" := by
  have h := claim_C2_classification [] 0 cGen400cap (Except.ok ()) cRecCF []
    (by rfl)
  exact ⟨h.2.1.mpr ⟨rfl, rfl, rfl⟩, rfl, rfl, rfl⟩

/-- C4: contrary to the claim, a per-item file-write failure after a
successful transport call is NOT converted into a failure outcome: the
exception escapes `process_single_prompt`, resurfaces from
`future.result()`, and aborts the whole batch with no summary. -/
theorem claim_C4_write_failure_aborts :
    process_single_prompt [ 'h', 'i' ] 0 (cGenOk 0) (Except.error "disk full") =
      Except.error "disk full" ∧
    process "prompts.txt" "out" [ [ 'h', 'i' ] ] cGenOk
      (fun _ => Except.error "disk full") 3 1 [0] = Except.error "disk full" := by
  exact ⟨rfl, rfl⟩

/-- C8: contrary to the claim, a supplied temperature override of 0.0 is
dropped by the truthiness test `if temperature:` and the payload falls
back to the configured default (0.7 here); a nonzero override such as 0.5
is passed through. -/
theorem claim_C8_temperature_zero_dropped :
    (buildParams none (some 0) none).temperature = none ∧
    (payloadOf [] (buildParams none (some 0) none) { }).temperature = 7/10 ∧
    (7 : ℚ)/10 ≠ 0 ∧
    (payloadOf [] (buildParams none (some (1/2)) none) { }).temperature = 1/2 := by
  refine ⟨rfl, by norm_num [payloadOf, buildParams], by norm_num, ?_⟩
  norm_num [payloadOf, buildParams]

/-- C10 counterexample: a 103-character prompt ending in three dots is
longer than 100 characters, yet the record stores the prompt verbatim —
its truncation coincides with the full text, refuting "the full text of a
long prompt is never stored". -/
theorem claim_C10_counterexample :
    cLongPrompt.length > 100 ∧
    process_single_prompt cLongPrompt 0 cGen400lower (Except.ok ()) =
      Except.ok ({ success := false, content_filtered := false, index := 0,
                   prompt := cLongPrompt, error := some "Bad request" }, []) := by
  exact ⟨by decide, by rfl⟩

/-- C10 (amended): the stored prompt equals the original when its length
is at most 100, and equals the first 100 characters followed by "..."
when longer; in particular the full text of a prompt longer than 103
characters is never stored. -/
theorem claim_C10_truncation (p : List Char) (i : Nat) (r : GenResult)
    (wr : Except String Unit) (rec : ResultRec) (ws : List (String × FileData))
    (h : process_single_prompt p i r wr = .ok (rec, ws)) :
    (p.length ≤ 100 → rec.prompt = p) ∧
    (p.length > 100 → rec.prompt = p.take 100 ++ [ '.', '.', '.' ]) ∧
    (p.length > 103 → rec.prompt ≠ p) := by
  have hp : rec.prompt = truncPrompt p := by
    rcases psp_ok_cases h with ⟨_, o, _, hrec, _⟩ | ⟨_, hrec, _⟩ <;> simp [hrec]
  refine ⟨?_, ?_, ?_⟩
  · intro hle
    rw [hp, truncPrompt, if_neg (by omega)]
  · intro hgt
    rw [hp, truncPrompt, if_pos hgt]
  · intro hgt heq
    rw [hp, truncPrompt, if_pos (by omega)] at heq
    have hlen := congrArg List.length heq
    simp [List.length_take] at hlen
    omega

/-- Witness for C10 on a short prompt, stored verbatim. -/
theorem claim_C10_witness :
    ([ 'h', 'i' ] : List Char).length ≤ 100 ∧
    ({ success := false, content_filtered := false, index := 0,
       prompt := [ 'h', 'i' ], error := some "Bad request" } : ResultRec).prompt =
      [ 'h', 'i' ] := by
  refine ⟨by decide, ?_⟩
  exact (claim_C10_truncation [ 'h', 'i' ] 0 cGen400lower (Except.ok ()) _ []
    (by rfl)).1 (by decide)

/-- C3: whenever a batch run computes a summary, it satisfies
successful + failed = total_prompts (with total_prompts the number of
prompts) and content_filtered ≤ failed — content-filtered outcomes are a
subset of the failed ones. -/
theorem claim_C3_summary_counts (inf outd : String) (P : List (List Char))
    (g : Nat → GenResult) (wr : Nat → Except String Unit) (mw : Nat) (d : ℚ)
    (ord : List Nat) (hperm : ord.Perm (List.range P.length))
    (s : BatchSummary)
    (hs : summaryOf (process inf outd P g wr mw d ord) = some s) :
    s.total_prompts = P.length ∧
    s.successful + s.failed = s.total_prompts ∧
    s.content_filtered ≤ s.failed := by
  by_cases h0 : P.length = 0
  · exfalso
    unfold process at hs
    rw [if_pos h0] at hs
    simp [summaryOf] at hs
  · unfold process at hs
    rw [if_neg h0] at hs
    cases hp : process_prompts_concurrent P g wr mw d ord with
    | error e =>
      rw [hp] at hs
      simp [summaryOf] at hs
    | ok pr =>
      obtain ⟨results, ws⟩ := pr
      rw [hp] at hs
      simp only [summaryOf, Option.some.injEq] at hs
      subst hs
      have hok := ppc_ok_inv hp
      have hppc := ppc_ok P g wr mw d ord hperm hok
      rw [hp] at hppc
      simp only [Except.ok.injEq, Prod.mk.injEq] at hppc
      obtain ⟨hres, -⟩ := hppc
      subst hres
      have hlen : (finalResults P g wr).length = P.length := by simp [finalResults]
      have hcnt : (finalResults P g wr).countP (·.success) ≤
          (finalResults P g wr).length := List.countP_le_length _
      have hdisj : ∀ rec ∈ finalResults P g wr,
          rec.content_filtered = true → rec.success = false := by
        intro rec hmem hcf
        have hmem2 : ∃ a, a < P.length ∧ (okPart (workerAt P g wr a)).1 = rec := by
          simpa [finalResults, List.mem_map] using hmem
        obtain ⟨i, hiP, hrec⟩ := hmem2
        have hoki : (workerAt P g wr i).isOk = true :=
          hok i ((hperm.mem_iff).mpr (List.mem_range.mpr hiP))
        subst hrec
        exact workerAt_cf_not_success hoki hcf
      have hcfle : (finalResults P g wr).countP (·.content_filtered) ≤
          (finalResults P g wr).length - (finalResults P g wr).countP (·.success) :=
        countP_le_length_sub_countP _ _ _ hdisj
      refine ⟨rfl, ?_, ?_⟩
      · simp only [mkSummary]
        omega
      · simp only [mkSummary]
        omega

/-- Witness for C3 at a concrete two-prompt batch whose prompts both
fail. -/
theorem claim_C3_witness :
    (mkSummary "p.txt" "out" [ [ 'a' ], [ 'b' ] ]
      (finalResults [ [ 'a' ], [ 'b' ] ] cGenFail cWrOk)).content_filtered ≤
    (mkSummary "p.txt" "out" [ [ 'a' ], [ 'b' ] ]
      (finalResults [ [ 'a' ], [ 'b' ] ] cGenFail cWrOk)).failed :=
  (claim_C3_summary_counts "p.txt" "out" [ [ 'a' ], [ 'b' ] ] cGenFail cWrOk 3 1
    [1, 0] (by decide) _
    (by rw [process_ok "p.txt" "out" [ [ 'a' ], [ 'b' ] ] cGenFail cWrOk 3 1 [1, 0]
          (by decide) (by decide) (by decide)]
        rfl)).2.2

/-- C6: `generate_text` is a total function of its single transport event
— no exception escapes and no retry is made — a 200 response with a
decodable body is the only success (carrying the parsed payload), and
every failure mode yields a record with success = false, an error
message, and a status-code surrogate (408 timeout, 503 connection,
500 unexpected/undecodable, the reported status otherwise). -/
theorem claim_C6_client_uniform :
    (∀ o : RespObj, generate_text (HttpEvent.response 200 (Body.obj o)) =
      { success := true, data := some o, status_code := 200 }) ∧
    (∀ e : HttpEvent, (generate_text e).success = true →
      ∃ o, e = HttpEvent.response 200 (Body.obj o)) ∧
    (∀ e : HttpEvent, (generate_text e).success = false →
      (generate_text e).error.isSome = true) ∧
    (generate_text HttpEvent.timeout).success = false ∧
    (generate_text HttpEvent.timeout).status_code = 408 ∧
    (generate_text HttpEvent.connectionError).success = false ∧
    (generate_text HttpEvent.connectionError).status_code = 503 ∧
    (∀ m, (generate_text (HttpEvent.otherException m)).success = false ∧
      (generate_text (HttpEvent.otherException m)).status_code = 500) ∧
    (∀ st m, (generate_text (HttpEvent.response st (Body.malformed m))).success = false) ∧
    (∀ st o, st ≠ 200 →
      (generate_text (HttpEvent.response st (Body.obj o))).success = false) ∧
    (∀ es r n, generate_textAttempts es = some (r, n) → n = 1) := by
  refine ⟨fun o => rfl, ?_, ?_, rfl, rfl, rfl, rfl, fun m => ⟨rfl, rfl⟩, ?_, ?_, ?_⟩
  · intro e he
    cases e with
    | timeout => simp [generate_text] at he
    | connectionError => simp [generate_text] at he
    | otherException m => simp [generate_text] at he
    | response st b =>
      by_cases h200 : st = 200
      · subst h200
        cases b with
        | obj o => exact ⟨o, rfl⟩
        | empty => simp [generate_text] at he
        | malformed m => simp [generate_text] at he
      · by_cases h400 : st = 400
        · subst h400
          cases b <;> simp [generate_text] at he
        · cases b <;> simp [generate_text, h200, h400] at he
  · intro e he
    cases e with
    | timeout => rfl
    | connectionError => rfl
    | otherException m => rfl
    | response st b =>
      by_cases h200 : st = 200
      · subst h200
        cases b with
        | obj o => simp [generate_text] at he
        | empty => rfl
        | malformed m => rfl
      · by_cases h400 : st = 400
        · subst h400
          cases b <;> simp [generate_text]
        · cases b <;> simp [generate_text, h200, h400]
  · intro st m
    by_cases h200 : st = 200
    · subst h200; rfl
    · by_cases h400 : st = 400
      · subst h400; rfl
      · simp [generate_text, h200, h400]
  · intro st o hne
    by_cases h400 : st = 400
    · subst h400; rfl
    · simp [generate_text, hne, h400]
  · intro es r n h
    cases es with
    | nil => simp [generate_textAttempts] at h
    | cons e t =>
      simp only [generate_textAttempts, Option.some.injEq, Prod.mk.injEq] at h
      exact h.2.symm

/-- Witness for C6 at a concrete 404 response. -/
theorem claim_C6_witness :
    (generate_text (HttpEvent.response 404 (Body.obj {}))).success = false ∧
    (generate_text (HttpEvent.response 404 (Body.obj {}))).error.isSome = true := by
  have h := claim_C6_client_uniform
  have h404 : (generate_text (HttpEvent.response 404 (Body.obj {}))).success = false :=
    h.2.2.2.2.2.2.2.2.2.1 404 {} (by decide)
  exact ⟨h404, h.2.2.1 _ h404⟩

/-- C7: in a completed batch run, the per-item text files written are
exactly one per successful transport result, named by 1-based,
four-digit-zero-padded original position, and the summary is written to
batch_summary.json after them; no per-item file is written for a failed
or content-filtered outcome. -/
theorem claim_C7_output_files (inf outd : String) (P : List (List Char))
    (g : Nat → GenResult) (wr : Nat → Except String Unit) (mw : Nat) (d : ℚ)
    (ord : List Nat) (hne : P.length ≠ 0)
    (hperm : ord.Perm (List.range P.length))
    (hok : ∀ i ∈ ord, (workerAt P g wr i).isOk = true)
    (out : ProcOut) (hout : process inf outd P g wr mw d ord = .ok out) :
    out.writes =
      ((ord.filter (fun i => (g i).success)).map
        (fun i => (resultFileName i, FileData.textFile (dataTextOf (g i))))) ++
      [ ("batch_summary.json",
         FileData.jsonFile (mkSummary inf outd P (finalResults P g wr))) ] ∧
    resultFileName 6 = "result_0007.txt" := by
  constructor
  · rw [process_ok inf outd P g wr mw d ord hne hperm hok] at hout
    simp only [Except.ok.injEq] at hout
    subst hout
    have hmapw : ord.map (fun i => (okPart (workerAt P g wr i)).2) =
        ord.map (fun i => if (g i).success then
          [ (resultFileName i, FileData.textFile (dataTextOf (g i))) ] else []) :=
      List.map_congr_left (fun i hi => workerAt_writes (hok i hi))
    dsimp only
    rw [hmapw, flatten_ite_singleton]
  · rfl

/-- Witness for C7 at a one-prompt batch whose prompt succeeds. -/
theorem claim_C7_witness :
    resultFileName 6 = "result_0007.txt" :=
  (claim_C7_output_files "p.txt" "out" [ [ 'a' ] ] cGenOk cWrOk 3 1 [0]
    (by decide) (by decide) (by decide) _
    (process_ok "p.txt" "out" [ [ 'a' ] ] cGenOk cWrOk 3 1 [0]
      (by decide) (by decide) (by decide))).2
